import Mathlib

/-!
Verification development for the dovetail repository (wu-json/dovetail).

The Go source is shallowly embedded: Go string-keyed maps become
association lists with Go map semantics (`mget` / `mset` / `mdel`),
the side effects relevant to the specification (calls to a service's
`UpdateTarget` and `Stop`) are collected in a trace, and fallible
collaborators (the service factory, `Service.Start`, `Service.Stop`,
the WhoIs identity lookup) are supplied as explicit oracles.
-/

namespace Dovetail

/-! ### Go map embedding

A `map[string]V` is embedded as a `List (String × V)`.  `mget` is map
indexing (`v, ok := m[k]`), `mset` is assignment (`m[k] = v`: replace
the binding if the key is present, otherwise add it), `mdel` is
`delete(m, k)`.  States reachable through the public API have
pairwise-distinct keys (`keysNodup`), matching a real Go map. -/

def mget {α : Type} (k : String) : List (String × α) → Option α
  | [] => none
  | (k', v) :: rest => if k' = k then some v else mget k rest

def mset {α : Type} (k : String) (v : α) : List (String × α) → List (String × α)
  | [] => [(k, v)]
  | (k', v') :: rest => if k' = k then (k, v) :: rest else (k', v') :: mset k v rest

def mdel {α : Type} (k : String) : List (String × α) → List (String × α)
  | [] => []
  | (k', v') :: rest => if k' = k then rest else (k', v') :: mdel k rest

def keysNodup {α : Type} (m : List (String × α)) : Prop :=
  (m.map Prod.fst).Nodup

instance {α : Type} (m : List (String × α)) : Decidable (keysNodup m) := by
  unfold keysNodup; infer_instance

@[simp] theorem mget_nil {α : Type} (k : String) : mget k ([] : List (String × α)) = none := rfl

theorem mget_cons {α : Type} (k k' : String) (v : α) (rest : List (String × α)) :
    mget k ((k', v) :: rest) = if k' = k then some v else mget k rest := rfl

theorem mget_mset_self {α : Type} (k : String) (v : α) (m : List (String × α)) :
    mget k (mset k v m) = some v := by
  induction m with
  | nil => simp [mget, mset]
  | cons p rest ih =>
    obtain ⟨k', v'⟩ := p
    by_cases h : k' = k
    · simp [mget, mset, h]
    · simp [mget, mset, h, ih]

theorem mget_mset_ne {α : Type} {k j : String} (v : α) (m : List (String × α))
    (h : j ≠ k) : mget j (mset k v m) = mget j m := by
  induction m with
  | nil =>
    simp only [mset, mget]
    rw [if_neg (Ne.symm h)]
  | cons p rest ih =>
    obtain ⟨k', v'⟩ := p
    by_cases hk : k' = k
    · subst hk
      simp only [mset, if_pos rfl, if_true]
      rw [mget_cons, mget_cons, if_neg (Ne.symm h), if_neg (Ne.symm h)]
    · simp only [mset, if_neg hk]
      rw [mget_cons, mget_cons]
      by_cases hj : k' = j
      · simp [hj]
      · simp [hj, ih]

theorem mget_mdel_ne {α : Type} {k j : String} (m : List (String × α))
    (hnd : keysNodup m) (h : j ≠ k) : mget j (mdel k m) = mget j m := by
  induction m with
  | nil => simp [mdel]
  | cons p rest ih =>
    obtain ⟨k', v'⟩ := p
    simp only [keysNodup, List.map_cons, List.nodup_cons] at hnd
    by_cases hk : k' = k
    · subst hk
      simp only [mdel, if_pos rfl, if_true]
      rw [mget_cons, if_neg (Ne.symm h)]
    · simp only [mdel, if_neg hk]
      rw [mget_cons, mget_cons]
      by_cases hj : k' = j
      · simp [hj]
      · simp [hj, ih hnd.2]

theorem mget_eq_none_iff {α : Type} (k : String) (m : List (String × α)) :
    mget k m = none ↔ ∀ p ∈ m, p.1 ≠ k := by
  induction m with
  | nil => simp
  | cons p rest ih =>
    obtain ⟨k', v'⟩ := p
    rw [mget_cons]
    by_cases h : k' = k
    · simp [h]
    · simp [h, ih]

theorem mget_mdel_self {α : Type} (k : String) (m : List (String × α))
    (hnd : keysNodup m) : mget k (mdel k m) = none := by
  induction m with
  | nil => simp [mdel]
  | cons p rest ih =>
    obtain ⟨k', v'⟩ := p
    simp only [keysNodup, List.map_cons, List.nodup_cons] at hnd
    by_cases hk : k' = k
    · subst hk
      simp only [mdel, if_pos rfl, if_true]
      -- the key does not occur in the tail, so the lookup misses
      rw [mget_eq_none_iff]
      intro p hp hpk
      exact hnd.1 (List.mem_map.mpr ⟨p, hp, hpk⟩)
    · simp only [mdel, if_neg hk]
      rw [mget_cons, if_neg hk]
      exact ih hnd.2

theorem mem_of_mget_eq_some {α : Type} {k : String} {v : α} {m : List (String × α)}
    (h : mget k m = some v) : (k, v) ∈ m := by
  induction m with
  | nil => simp [mget] at h
  | cons p rest ih =>
    obtain ⟨k', v'⟩ := p
    rw [mget_cons] at h
    by_cases hk : k' = k
    · rw [if_pos hk] at h
      subst hk
      cases h
      exact List.mem_cons_self _ _
    · rw [if_neg hk] at h
      exact List.mem_cons_of_mem _ (ih h)

theorem keys_mset_of_fresh {α : Type} {k : String} (v : α) {m : List (String × α)}
    (h : mget k m = none) : (mset k v m).map Prod.fst = m.map Prod.fst ++ [k] := by
  induction m with
  | nil => simp [mset]
  | cons p rest ih =>
    obtain ⟨k', v'⟩ := p
    rw [mget_cons] at h
    by_cases hk : k' = k
    · simp [hk] at h
    · rw [if_neg hk] at h
      simp [mset, hk, ih h]

theorem keysNodup_mset_of_fresh {α : Type} {k : String} (v : α) {m : List (String × α)}
    (hnd : keysNodup m) (h : mget k m = none) : keysNodup (mset k v m) := by
  unfold keysNodup
  rw [keys_mset_of_fresh v h]
  rw [mget_eq_none_iff] at h
  apply List.Nodup.append hnd (List.nodup_singleton k)
  intro x hx hx1
  simp only [List.mem_singleton] at hx1
  subst hx1
  obtain ⟨p, hp, hpx⟩ := List.mem_map.mp hx
  exact h p hp hpx

theorem keys_mset_of_mem {α : Type} {k : String} {w : α} (v : α) {m : List (String × α)}
    (h : mget k m = some w) : (mset k v m).map Prod.fst = m.map Prod.fst := by
  induction m with
  | nil => simp [mget] at h
  | cons p rest ih =>
    obtain ⟨k', v'⟩ := p
    rw [mget_cons] at h
    by_cases hk : k' = k
    · simp [mset, hk]
    · rw [if_neg hk] at h
      simp [mset, hk, ih h]

theorem keysNodup_mset_of_mem {α : Type} {k : String} {w : α} (v : α) {m : List (String × α)}
    (hnd : keysNodup m) (h : mget k m = some w) : keysNodup (mset k v m) := by
  unfold keysNodup
  rw [keys_mset_of_mem v h]
  exact hnd

theorem mdel_sublist {α : Type} (k : String) (m : List (String × α)) :
    (mdel k m).Sublist m := by
  induction m with
  | nil => simp [mdel]
  | cons p rest ih =>
    obtain ⟨k', v'⟩ := p
    by_cases hk : k' = k
    · simp only [mdel, if_pos hk]
      exact List.sublist_cons_self _ _
    · simp only [mdel, if_neg hk]
      exact ih.cons₂ _

theorem keysNodup_mdel {α : Type} (k : String) {m : List (String × α)}
    (hnd : keysNodup m) : keysNodup (mdel k m) := by
  unfold keysNodup at hnd ⊢
  exact ((mdel_sublist k m).map Prod.fst).nodup hnd

theorem length_mset_of_mem {α : Type} {k : String} {w : α} (v : α) {m : List (String × α)}
    (h : mget k m = some w) : (mset k v m).length = m.length := by
  have := keys_mset_of_mem v h
  have h1 : ((mset k v m).map Prod.fst).length = (m.map Prod.fst).length := by rw [this]
  simpa using h1

theorem length_mset_of_fresh {α : Type} {k : String} (v : α) {m : List (String × α)}
    (h : mget k m = none) : (mset k v m).length = m.length + 1 := by
  have := keys_mset_of_fresh v h
  have h1 : ((mset k v m).map Prod.fst).length = (m.map Prod.fst ++ [k]).length := by rw [this]
  simpa using h1

/-! ### Data model (src/internal/docker/watcher.go, src/internal/config/config.go,
src/internal/service/service.go, src/internal/service/manager.go) -/

/-- `docker.EventType` (watcher.go). -/
inductive EventType where
  | start
  | stop
deriving DecidableEq, Repr

/-- `docker.ServiceConfig` (watcher.go): the resolved spec of one container. -/
structure ServiceConfig where
  name : String
  port : Int
  ip : String
  network : String
deriving DecidableEq, Repr

/-- `docker.ContainerEvent` (watcher.go). -/
structure ContainerEvent where
  type : EventType
  containerID : String
  config : Option ServiceConfig
deriving DecidableEq, Repr

/-- `config.Config` (config.go): process-wide settings. -/
structure Config where
  authKey : String
  stateDir : String
deriving DecidableEq, Repr

/-- `service.ServiceConfig` (service.go): what the manager hands to the factory. -/
structure SvcConfig where
  name : String
  targetIP : String
  port : Int
  stateDir : String
  authKey : String
deriving DecidableEq, Repr

/-- The state of one `service.ServiceInterface` implementation that the
manager observes: a fixed name (`Name()`), and the current proxy target
(mutated by `UpdateTarget`).  `service.New` fixes `name := cfg.Name`. -/
structure Svc where
  name : String
  targetIP : String
  targetPort : Int
deriving DecidableEq, Repr

/-- The environment of fallible collaborators: the `ServiceFactory`
(`none` = construction error), the outcome of `Service.Start`
(`false` = start error) and of `Service.Stop` (`false` = stop error). -/
structure Env where
  create : SvcConfig → Option Svc
  startOK : Svc → Bool
  stopOK : Svc → Bool

/-- The side effects a manager step performs on its services:
`updateTarget id ip port` records `existing.UpdateTarget(cfg.IP, cfg.Port)`
on the service registered under container `id`; `stop id svc ok` records
`svc.Stop()` (with outcome `ok`) on the service registered under `id`. -/
inductive Call where
  | updateTarget (containerID ip : String) (port : Int)
  | stop (containerID : String) (svc : Svc) (ok : Bool)
deriving DecidableEq, Repr

/-- `service.Manager` (manager.go): `services` keyed by container ID,
`names` mapping service name → container ID. -/
structure Manager where
  config : Config
  services : List (String × Svc)
  names : List (String × String)
deriving DecidableEq, Repr

/-- `service.NewManager`. -/
def newManager (cfg : Config) : Manager :=
  { config := cfg, services := [], names := [] }

/-- The `service.ServiceConfig` the manager passes to the factory
(manager.go lines 100–106). -/
def Manager.svcConfigFor (m : Manager) (cfg : ServiceConfig) : SvcConfig :=
  { name := cfg.name, targetIP := cfg.ip, port := cfg.port,
    stateDir := m.config.stateDir, authKey := m.config.authKey }

/-- `Manager.handleStart` (manager.go lines 68–135), with the trace of
`UpdateTarget` calls it makes.  The branch order mirrors the source:
nil config, duplicate-name check, existing-container check, factory,
`Start`, insertion into both maps only after a successful start. -/
def Manager.handleStart (env : Env) (m : Manager) (event : ContainerEvent) :
    Manager × List Call :=
  match event.config with
  | none => (m, [])
  | some cfg =>
    -- Check for duplicate service name
    if (mget cfg.name m.names).isSome then
      (m, [])
    else
      -- Check if we already have this container (e.g., from initial scan + event)
      match mget event.containerID m.services with
      | some existing =>
        let updated : Svc := { existing with targetIP := cfg.ip, targetPort := cfg.port }
        ({ m with services := mset event.containerID updated m.services },
         [Call.updateTarget event.containerID cfg.ip cfg.port])
      | none =>
        -- Create and start new service
        match env.create (m.svcConfigFor cfg) with
        | none => (m, [])
        | some svc =>
          if env.startOK svc then
            ({ m with services := mset event.containerID svc m.services,
                      names := mset cfg.name event.containerID m.names }, [])
          else (m, [])

/-- `Manager.handleStop` (manager.go lines 137–161). -/
def Manager.handleStop (env : Env) (m : Manager) (event : ContainerEvent) :
    Manager × List Call :=
  match mget event.containerID m.services with
  | none => (m, [])
  | some svc =>
    ({ m with services := mdel event.containerID m.services,
              names := mdel svc.name m.names },
     [Call.stop event.containerID svc (env.stopOK svc)])

/-- `Manager.HandleEvent` (manager.go lines 59–66). -/
def Manager.handleEvent (env : Env) (m : Manager) (event : ContainerEvent) :
    Manager × List Call :=
  match event.type with
  | EventType.start => m.handleStart env event
  | EventType.stop => m.handleStop env event

/-- `Manager.Shutdown` (manager.go lines 163–189): snapshot and clear both
maps, then stop every captured service (errors are logged and ignored). -/
def Manager.shutdown (env : Env) (m : Manager) : Manager × List Call :=
  ({ m with services := [], names := [] },
   m.services.map (fun p => Call.stop p.1 p.2 (env.stopOK p.2)))

/-- `Manager.ServiceCount` (manager.go lines 191–195). -/
def Manager.serviceCount (m : Manager) : Nat :=
  m.services.length

/-- One sequentially-applied registry operation. -/
inductive Op where
  | event (ev : ContainerEvent)
  | shutdown
deriving DecidableEq, Repr

def Manager.applyOp (env : Env) (m : Manager) : Op → Manager
  | Op.event ev => (m.handleEvent env ev).1
  | Op.shutdown => (m.shutdown env).1

def Manager.applyOps (env : Env) (m : Manager) (ops : List Op) : Manager :=
  ops.foldl (fun st op => st.applyOp env op) m

/-! ### Discovery stream embedding (src/internal/docker/watcher.go)

`inspectContainer` resolves one container's labels and networks into a
`ServiceConfig`; `getContainerIP` selects the reachable address.  Error
messages carry no information the claims use, so fallible steps return
`Option` (`none` = the Go function returned an error). -/

/-- The label keys (watcher.go lines 17–21). -/
def labelName : String := "dovetail.name"

def labelPort : String := "dovetail.port"

def labelNetwork : String := "dovetail.network"

/-- What `ContainerInspect` exposes of one container: its labels and, for
each attached network, the network name and its `IPAddress` field. -/
structure ContainerInfo where
  labels : List (String × String)
  networks : List (String × String)
deriving DecidableEq, Repr

/-- `strconv.Atoi`: optional sign, one or more decimal digits, value
within the 64-bit int range; anything else is an error (`none`). -/
def atoi (s : String) : Option Int :=
  match s.toList with
  | [] => none
  | c :: rest =>
    let (neg, digits) :=
      if c = '-' then (true, rest)
      else if c = '+' then (false, rest)
      else (false, c :: rest)
    if digits.isEmpty then none
    else if digits.all Char.isDigit then
      let n : Nat := digits.foldl (fun acc d => 10 * acc + (d.toNat - '0'.toNat)) 0
      let v : Int := if neg then -(n : Int) else (n : Int)
      if v < -(2 ^ 63) ∨ 2 ^ 63 - 1 < v then none else some v
    else none

/-- Priority 1 of `getContainerIP` (watcher.go lines 221–227): the
preferred network, if one is named and it has a non-empty address. -/
def preferredIP (networks : List (String × String)) (preferred : String) :
    Option (String × String) :=
  if preferred = "" then none
  else
    match mget preferred networks with
    | some ip => if ip = "" then none else some (ip, preferred)
    | none => none

/-- Priority 2 of `getContainerIP` (watcher.go lines 229–232): the
network named "bridge", if present with a non-empty address. -/
def bridgeIP (networks : List (String × String)) : Option (String × String) :=
  match mget "bridge" networks with
  | some ip => if ip = "" then none else some (ip, "bridge")
  | none => none

/-- The network names in the order `sort.Strings` produces
(lexicographically ascending; equal strings are identical, so any
comparison sort yields this list). -/
def sortedNames (networks : List (String × String)) : List String :=
  List.insertionSort (fun a b => a ≤ b) (networks.map Prod.fst)

/-- Priority 3 of `getContainerIP` (watcher.go lines 234–245): walk the
sorted names and return the first whose network has a non-empty address. -/
def firstIPByName (networks : List (String × String)) :
    List String → Option (String × String)
  | [] => none
  | n :: rest =>
    match mget n networks with
    | some ip => if ip = "" then firstIPByName networks rest else some (ip, n)
    | none => firstIPByName networks rest

/-- `Watcher.getContainerIP` (watcher.go lines 216–248): returns
`(IPAddress, network name)` or an error (`none`). -/
def getContainerIP (networks : List (String × String)) (preferred : String) :
    Option (String × String) :=
  if networks.isEmpty then none
  else
    match preferredIP networks preferred with
    | some r => some r
    | none =>
      match bridgeIP networks with
      | some r => some r
      | none => firstIPByName networks (sortedNames networks)

/-- `Watcher.inspectContainer` (watcher.go lines 169–214): require a
non-empty name label and a parseable port label, read the optional
preferred-network label (missing ⇒ ""), then select the address. -/
def inspectContainer (info : ContainerInfo) : Option ServiceConfig :=
  match mget labelName info.labels with
  | none => none
  | some name =>
    if name = "" then none
    else
      match mget labelPort info.labels with
      | none => none
      | some portStr =>
        if portStr = "" then none
        else
          match atoi portStr with
          | none => none
          | some port =>
            let preferred := (mget labelNetwork info.labels).getD ""
            match getContainerIP info.networks preferred with
            | none => none
            | some (ip, net) =>
              some { name := name, port := port, ip := ip, network := net }

/-! ### Request forwarder embedding (internal/proxy, src/unnamed/part_005)

The proxy rewrites each request to the current target and injects the
Tailscale identity headers.  `http.Header.Set` replaces the value of a
key, so the header map reuses `mset`.  The WhoIs lookup is an oracle
from the request remote address to an optional response (`none` = the
lookup returned an error). -/

/-- The four identity header keys (part_005 lines 13–18). -/
def headerUser : String := "X-Tailscale-User"

def headerName : String := "X-Tailscale-Name"

def headerLogin : String := "X-Tailscale-Login"

def headerTailnet : String := "X-Tailscale-Tailnet"

/-- The parts of `url.URL` the director touches or must preserve. -/
structure URLModel where
  scheme : String
  host : String
  path : String
  rawQuery : String
deriving DecidableEq, Repr

/-- The parts of `http.Request` the proxy reads or writes. -/
structure Request where
  url : URLModel
  host : String
  header : List (String × String)
  remoteAddr : String
deriving DecidableEq, Repr

/-- `tailcfg.UserProfile`, as read by `injectIdentity`. -/
structure UserProfile where
  loginName : String
  displayName : String
deriving DecidableEq, Repr

/-- The node's host information: whether `Hostinfo.Valid()` holds and
what `Hostinfo.Hostname()` returns. -/
structure Hostinfo where
  valid : Bool
  hostname : String
deriving DecidableEq, Repr

/-- `tailcfg.Node`, as read by `injectIdentity`. -/
structure Node where
  computedName : String
  hostinfo : Hostinfo
deriving DecidableEq, Repr

/-- `apitype.WhoIsResponse`: optional user profile and optional node. -/
structure WhoIsResponse where
  userProfile : Option UserProfile
  node : Option Node
deriving DecidableEq, Repr

/-- `proxy.Proxy`: the current target (held behind an atomic pointer in
the source; a single snapshot value here, since the director loads it
once per request) and the optional identity-lookup handle.  The handle
maps the request's remote address to the WhoIs result (`none` = error). -/
structure Proxy where
  target : URLModel
  localClient : Option (String → Option WhoIsResponse)

/-- `Proxy.injectIdentity` (part_005 lines 60–82). -/
def Proxy.injectIdentity (p : Proxy) (req : Request) : Request :=
  match p.localClient with
  | none => req
  | some whois =>
    match whois req.remoteAddr with
    | none => req
    | some w =>
      let req1 :=
        match w.userProfile with
        | some up =>
          let h1 := mset headerName up.displayName (mset headerUser up.loginName req.header)
          { req with header := h1 }
        | none => req
      match w.node with
      | none => req1
      | some nd =>
        let req2 := { req1 with header := mset headerLogin nd.computedName req1.header }
        if nd.hostinfo.valid then
          { req2 with header := mset headerTailnet nd.hostinfo.hostname req2.header }
        else req2

/-- `Proxy.director` (part_005 lines 50–58): load the target once, set
the outgoing scheme and host from it, then inject identity headers. -/
def Proxy.director (p : Proxy) (req : Request) : Request :=
  let target := p.target
  let req1 := { req with
    url := { req.url with scheme := target.scheme, host := target.host },
    host := target.host }
  p.injectIdentity req1

/-! ### Theorems -/

theorem injectIdentity_preserves_url_host (p : Proxy) (req : Request) :
    (p.injectIdentity req).url = req.url ∧ (p.injectIdentity req).host = req.host ∧
    (p.injectIdentity req).remoteAddr = req.remoteAddr := by
  unfold Proxy.injectIdentity
  repeat' split
  all_goals exact ⟨rfl, rfl, rfl⟩

/-- C9: for every request and every current Target, the director sets the
outgoing request's URL scheme and host (and the Host header) from the one
loaded Target snapshot, while the request's path and query string are left
unchanged. -/
theorem director_rewrites_scheme_host_only (p : Proxy) (req : Request) :
    (p.director req).url.scheme = p.target.scheme ∧
    (p.director req).url.host = p.target.host ∧
    (p.director req).host = p.target.host ∧
    (p.director req).url.path = req.url.path ∧
    (p.director req).url.rawQuery = req.url.rawQuery := by
  unfold Proxy.director
  obtain ⟨hurl, hhost, -⟩ := injectIdentity_preserves_url_host p
    { req with
      url := { req.url with scheme := p.target.scheme, host := p.target.host },
      host := p.target.host }
  rw [hurl, hhost]
  exact ⟨rfl, rfl, rfl, rfl, rfl⟩

/-- C10: when the Proxy was constructed with a nil identity-lookup handle,
`injectIdentity` returns immediately without touching the request, and the
director still rewrites the request to the current target with zero
identity headers added. -/
theorem nil_local_client_skips_injection (t : URLModel) (req : Request) :
    Proxy.injectIdentity ⟨t, none⟩ req = req ∧
    (Proxy.director ⟨t, none⟩ req).header = req.header ∧
    (Proxy.director ⟨t, none⟩ req).url.scheme = t.scheme ∧
    (Proxy.director ⟨t, none⟩ req).url.host = t.host ∧
    (Proxy.director ⟨t, none⟩ req).host = t.host ∧
    (Proxy.director ⟨t, none⟩ req).url.path = req.url.path ∧
    (Proxy.director ⟨t, none⟩ req).url.rawQuery = req.url.rawQuery := by
  refine ⟨rfl, ?_, rfl, rfl, rfl, rfl, rfl⟩
  rfl

theorem headerUser_ne_headerName : headerUser ≠ headerName := by decide

theorem headerUser_ne_headerLogin : headerUser ≠ headerLogin := by decide

theorem headerUser_ne_headerTailnet : headerUser ≠ headerTailnet := by decide

theorem headerName_ne_headerLogin : headerName ≠ headerLogin := by decide

theorem headerName_ne_headerTailnet : headerName ≠ headerTailnet := by decide

theorem headerLogin_ne_headerTailnet : headerLogin ≠ headerTailnet := by decide

theorem headerTailnet_ne_headerLogin : headerTailnet ≠ headerLogin := by decide

theorem headerTailnet_ne_headerName : headerTailnet ≠ headerName := by decide

theorem headerTailnet_ne_headerUser : headerTailnet ≠ headerUser := by decide

theorem headerLogin_ne_headerName : headerLogin ≠ headerName := by decide

theorem headerLogin_ne_headerUser : headerLogin ≠ headerUser := by decide

theorem headerName_ne_headerUser : headerName ≠ headerUser := by decide

theorem inject_header_user (t : URLModel) (whois : String → Option WhoIsResponse)
    (req : Request) (w : WhoIsResponse) (hw : whois req.remoteAddr = some w) :
    mget headerUser (Proxy.injectIdentity ⟨t, some whois⟩ req).header =
      match w.userProfile with
      | some up => some up.loginName
      | none => mget headerUser req.header := by
  simp only [Proxy.injectIdentity, hw]
  obtain ⟨oup, ond⟩ := w
  cases oup <;> cases ond <;> dsimp only
  · split
    · rw [mget_mset_ne _ _ headerUser_ne_headerTailnet,
        mget_mset_ne _ _ headerUser_ne_headerLogin]
    · rw [mget_mset_ne _ _ headerUser_ne_headerLogin]
  · rw [mget_mset_ne _ _ headerUser_ne_headerName, mget_mset_self]
  · split
    · rw [mget_mset_ne _ _ headerUser_ne_headerTailnet,
        mget_mset_ne _ _ headerUser_ne_headerLogin,
        mget_mset_ne _ _ headerUser_ne_headerName, mget_mset_self]
    · rw [mget_mset_ne _ _ headerUser_ne_headerLogin,
        mget_mset_ne _ _ headerUser_ne_headerName, mget_mset_self]

theorem inject_header_name (t : URLModel) (whois : String → Option WhoIsResponse)
    (req : Request) (w : WhoIsResponse) (hw : whois req.remoteAddr = some w) :
    mget headerName (Proxy.injectIdentity ⟨t, some whois⟩ req).header =
      match w.userProfile with
      | some up => some up.displayName
      | none => mget headerName req.header := by
  simp only [Proxy.injectIdentity, hw]
  obtain ⟨oup, ond⟩ := w
  cases oup <;> cases ond <;> dsimp only
  · split
    · rw [mget_mset_ne _ _ headerName_ne_headerTailnet,
        mget_mset_ne _ _ headerName_ne_headerLogin]
    · rw [mget_mset_ne _ _ headerName_ne_headerLogin]
  · rw [mget_mset_self]
  · split
    · rw [mget_mset_ne _ _ headerName_ne_headerTailnet,
        mget_mset_ne _ _ headerName_ne_headerLogin, mget_mset_self]
    · rw [mget_mset_ne _ _ headerName_ne_headerLogin, mget_mset_self]

theorem inject_header_login (t : URLModel) (whois : String → Option WhoIsResponse)
    (req : Request) (w : WhoIsResponse) (hw : whois req.remoteAddr = some w) :
    mget headerLogin (Proxy.injectIdentity ⟨t, some whois⟩ req).header =
      match w.node with
      | some nd => some nd.computedName
      | none =>
        match w.userProfile with
        | some _ => mget headerLogin req.header
        | none => mget headerLogin req.header := by
  simp only [Proxy.injectIdentity, hw]
  obtain ⟨oup, ond⟩ := w
  cases oup <;> cases ond <;> dsimp only
  · split
    · rw [mget_mset_ne _ _ headerLogin_ne_headerTailnet, mget_mset_self]
    · rw [mget_mset_self]
  · rw [mget_mset_ne _ _ headerLogin_ne_headerName,
      mget_mset_ne _ _ headerLogin_ne_headerUser]
  · split
    · rw [mget_mset_ne _ _ headerLogin_ne_headerTailnet, mget_mset_self]
    · rw [mget_mset_self]

theorem inject_header_tailnet (t : URLModel) (whois : String → Option WhoIsResponse)
    (req : Request) (w : WhoIsResponse) (hw : whois req.remoteAddr = some w) :
    mget headerTailnet (Proxy.injectIdentity ⟨t, some whois⟩ req).header =
      match w.node with
      | some nd =>
        if nd.hostinfo.valid then some nd.hostinfo.hostname
        else mget headerTailnet req.header
      | none => mget headerTailnet req.header := by
  simp only [Proxy.injectIdentity, hw]
  obtain ⟨oup, ond⟩ := w
  cases oup <;> cases ond <;> dsimp only
  · split
    · rw [mget_mset_self]
    · rw [mget_mset_ne _ _ headerTailnet_ne_headerLogin]
  · rw [mget_mset_ne _ _ headerTailnet_ne_headerName,
      mget_mset_ne _ _ headerTailnet_ne_headerUser]
  · split
    · rw [mget_mset_self]
    · rw [mget_mset_ne _ _ headerTailnet_ne_headerLogin,
        mget_mset_ne _ _ headerTailnet_ne_headerName,
        mget_mset_ne _ _ headerTailnet_ne_headerUser]

/-- C8: per-request identity injection is best-effort.  A lookup error
sets no identity headers and leaves the request unchanged (it still
proceeds); on success, a present user profile sets the login-name and
display-name headers, a present node sets the computed-name header and —
only when the host information is valid — the tailnet/hostname header;
each pair of headers is set independently of the other sub-structure,
and with both profile and node present (and valid host information) all
four headers receive exactly the looked-up values. -/
theorem identity_injection_best_effort :
    (∀ (t : URLModel) (whois : String → Option WhoIsResponse) (req : Request),
      whois req.remoteAddr = none → Proxy.injectIdentity ⟨t, some whois⟩ req = req) ∧
    (∀ (t : URLModel) (whois : String → Option WhoIsResponse) (req : Request)
      (w : WhoIsResponse) (up : UserProfile),
      whois req.remoteAddr = some w → w.userProfile = some up →
      mget headerUser (Proxy.injectIdentity ⟨t, some whois⟩ req).header = some up.loginName ∧
      mget headerName (Proxy.injectIdentity ⟨t, some whois⟩ req).header = some up.displayName) ∧
    (∀ (t : URLModel) (whois : String → Option WhoIsResponse) (req : Request)
      (w : WhoIsResponse) (nd : Node),
      whois req.remoteAddr = some w → w.node = some nd →
      mget headerLogin (Proxy.injectIdentity ⟨t, some whois⟩ req).header = some nd.computedName ∧
      (nd.hostinfo.valid = true →
        mget headerTailnet (Proxy.injectIdentity ⟨t, some whois⟩ req).header =
          some nd.hostinfo.hostname) ∧
      (nd.hostinfo.valid = false →
        mget headerTailnet (Proxy.injectIdentity ⟨t, some whois⟩ req).header =
          mget headerTailnet req.header)) ∧
    (∀ (t : URLModel) (whois : String → Option WhoIsResponse) (req : Request)
      (w : WhoIsResponse),
      whois req.remoteAddr = some w → w.userProfile = none →
      mget headerUser (Proxy.injectIdentity ⟨t, some whois⟩ req).header =
        mget headerUser req.header ∧
      mget headerName (Proxy.injectIdentity ⟨t, some whois⟩ req).header =
        mget headerName req.header) ∧
    (∀ (t : URLModel) (whois : String → Option WhoIsResponse) (req : Request)
      (w : WhoIsResponse),
      whois req.remoteAddr = some w → w.node = none →
      mget headerLogin (Proxy.injectIdentity ⟨t, some whois⟩ req).header =
        mget headerLogin req.header ∧
      mget headerTailnet (Proxy.injectIdentity ⟨t, some whois⟩ req).header =
        mget headerTailnet req.header) ∧
    (∀ (t : URLModel) (whois : String → Option WhoIsResponse) (req : Request)
      (w : WhoIsResponse) (up : UserProfile) (nd : Node),
      whois req.remoteAddr = some w → w.userProfile = some up → w.node = some nd →
      nd.hostinfo.valid = true →
      mget headerUser (Proxy.injectIdentity ⟨t, some whois⟩ req).header = some up.loginName ∧
      mget headerName (Proxy.injectIdentity ⟨t, some whois⟩ req).header = some up.displayName ∧
      mget headerLogin (Proxy.injectIdentity ⟨t, some whois⟩ req).header = some nd.computedName ∧
      mget headerTailnet (Proxy.injectIdentity ⟨t, some whois⟩ req).header =
        some nd.hostinfo.hostname) := by
  refine ⟨?_, ?_, ?_, ?_, ?_, ?_⟩
  · intro t whois req hw
    simp only [Proxy.injectIdentity, hw]
  · intro t whois req w up hw hup
    rw [inject_header_user t whois req w hw, inject_header_name t whois req w hw, hup]
    exact ⟨rfl, rfl⟩
  · intro t whois req w nd hw hnd
    rw [inject_header_login t whois req w hw, inject_header_tailnet t whois req w hw, hnd]
    dsimp only
    refine ⟨rfl, fun hv => ?_, fun hv => ?_⟩
    · rw [if_pos hv]
    · rw [if_neg (by rw [hv]; exact Bool.false_ne_true)]
  · intro t whois req w hw hup
    rw [inject_header_user t whois req w hw, inject_header_name t whois req w hw, hup]
    exact ⟨rfl, rfl⟩
  · intro t whois req w hw hnd
    rw [inject_header_login t whois req w hw, inject_header_tailnet t whois req w hw, hnd]
    cases hup : w.userProfile <;> exact ⟨rfl, rfl⟩
  · intro t whois req w up nd hw hup hnd hv
    rw [inject_header_user t whois req w hw, inject_header_name t whois req w hw,
      inject_header_login t whois req w hw, inject_header_tailnet t whois req w hw, hup, hnd]
    dsimp only
    rw [if_pos hv]
    exact ⟨rfl, rfl, rfl, rfl⟩

/-- The WhoIs response of the specification's identity-injection example. -/
def wEx : WhoIsResponse :=
  { userProfile := some { loginName := "a@b.com", displayName := "A B" },
    node := some { computedName := "node1", hostinfo := { valid := true, hostname := "host1" } } }

/-- An identity-lookup oracle that knows `wEx` at one remote address and
errors elsewhere. -/
def whoisEx : String → Option WhoIsResponse := fun a =>
  if a = "100.64.0.1:12345" then some wEx else none

/-- A sample inbound request from that remote address. -/
def reqEx : Request :=
  { url := { scheme := "https", host := "web.tail.ts.net", path := "/a/b", rawQuery := "q=1" },
    host := "web.tail.ts.net",
    header := [],
    remoteAddr := "100.64.0.1:12345" }

/-- The sample current target. -/
def targetEx : URLModel :=
  { scheme := "http", host := "172.17.0.2:80", path := "", rawQuery := "" }

theorem identity_injection_best_effort_witness :
    whoisEx reqEx.remoteAddr = some wEx ∧
    wEx.userProfile = some { loginName := "a@b.com", displayName := "A B" } ∧
    wEx.node = some { computedName := "node1", hostinfo := { valid := true, hostname := "host1" } } ∧
    mget headerUser (Proxy.injectIdentity ⟨targetEx, some whoisEx⟩ reqEx).header = some "a@b.com" ∧
    mget headerName (Proxy.injectIdentity ⟨targetEx, some whoisEx⟩ reqEx).header = some "A B" ∧
    mget headerLogin (Proxy.injectIdentity ⟨targetEx, some whoisEx⟩ reqEx).header = some "node1" ∧
    mget headerTailnet (Proxy.injectIdentity ⟨targetEx, some whoisEx⟩ reqEx).header = some "host1" := by
  have h := identity_injection_best_effort.2.2.2.2.2 targetEx whoisEx reqEx wEx
    { loginName := "a@b.com", displayName := "A B" }
    { computedName := "node1", hostinfo := { valid := true, hostname := "host1" } }
    rfl rfl rfl rfl
  exact ⟨rfl, rfl, rfl, h.1, h.2.1, h.2.2.1, h.2.2.2⟩

/-- Does this call record `Stop` on the service registered under `id`? -/
def isStopOf (id : String) : Call → Bool
  | Call.stop i _ _ => decide (i = id)
  | Call.updateTarget _ _ _ => false

theorem countP_key_eq_one {α : Type} {k : String} {v : α} {m : List (String × α)}
    (hnd : keysNodup m) (h : mget k m = some v) :
    m.countP (fun p => decide (p.1 = k)) = 1 := by
  induction m with
  | nil => simp [mget] at h
  | cons p rest ih =>
    obtain ⟨k', v'⟩ := p
    simp only [keysNodup, List.map_cons, List.nodup_cons] at hnd
    rw [mget_cons] at h
    rw [List.countP_cons]
    by_cases hk : k' = k
    · subst hk
      have h0 : rest.countP (fun p => decide (p.1 = k')) = 0 := by
        rw [List.countP_eq_zero]
        intro a ha hak
        exact hnd.1 (List.mem_map.mpr ⟨a, ha, of_decide_eq_true hak⟩)
      simp [h0]
    · rw [if_neg hk] at h
      have := ih hnd.2 h
      simp [this, hk]

/-- C5: for every registry state with distinct container keys,
`Shutdown` clears both maps (`ServiceCount` drops to 0), the emitted
`Stop` calls number exactly `ServiceCount`, each registered service is
stopped exactly once (with whatever outcome its `Stop` has), and the
cleared final state does not depend on any `Stop` outcome — a stop error
prevents neither the other stops nor the clearing. -/
theorem shutdown_stops_each_service_once (env : Env) (m : Manager)
    (hnd : keysNodup m.services) :
    (m.shutdown env).1.services = [] ∧
    (m.shutdown env).1.names = [] ∧
    (m.shutdown env).1.serviceCount = 0 ∧
    (m.shutdown env).2.length = m.serviceCount ∧
    (∀ id svc, mget id m.services = some svc →
      (m.shutdown env).2.countP (isStopOf id) = 1 ∧
      Call.stop id svc (env.stopOK svc) ∈ (m.shutdown env).2) ∧
    (∀ env2 : Env, (m.shutdown env2).1 = (m.shutdown env).1) := by
  refine ⟨rfl, rfl, rfl, ?_, ?_, fun env2 => rfl⟩
  · simp [Manager.shutdown, Manager.serviceCount]
  · intro id svc h
    constructor
    · show (m.services.map (fun p => Call.stop p.1 p.2 (env.stopOK p.2))).countP (isStopOf id) = 1
      rw [List.countP_map]
      have hfun : (isStopOf id ∘ fun p => Call.stop p.1 p.2 (env.stopOK p.2)) =
          fun p : String × Svc => decide (p.1 = id) := by
        funext p
        rfl
      rw [hfun]
      exact countP_key_eq_one hnd h
    · exact List.mem_map.mpr ⟨(id, svc), mem_of_mget_eq_some h, rfl⟩

/-- Two registered services for the shutdown witness. -/
def svcA : Svc := { name := "a", targetIP := "10.0.0.1", targetPort := 80 }

def svcB : Svc := { name := "b", targetIP := "10.0.0.2", targetPort := 81 }

/-- A registry holding `svcA` and `svcB`. -/
def mAB : Manager :=
  { config := { authKey := "tskey", stateDir := "/var/lib/dovetail" },
    services := [("cA", svcA), ("cB", svcB)],
    names := [("a", "cA"), ("b", "cB")] }

/-- An environment whose `Stop` fails exactly on `svcA`. -/
def envStopErr : Env :=
  { create := fun c => some { name := c.name, targetIP := c.targetIP, targetPort := c.port },
    startOK := fun _ => true,
    stopOK := fun s => s.name != "a" }

theorem shutdown_stops_each_service_once_witness :
    keysNodup mAB.services ∧
    envStopErr.stopOK svcA = false ∧
    (mAB.shutdown envStopErr).1.serviceCount = 0 ∧
    (mAB.shutdown envStopErr).2.length = 2 ∧
    (mAB.shutdown envStopErr).2.countP (isStopOf "cA") = 1 ∧
    (mAB.shutdown envStopErr).2.countP (isStopOf "cB") = 1 ∧
    Call.stop "cA" svcA false ∈ (mAB.shutdown envStopErr).2 ∧
    Call.stop "cB" svcB true ∈ (mAB.shutdown envStopErr).2 := by
  have h := shutdown_stops_each_service_once envStopErr mAB (by decide)
  refine ⟨by decide, by decide, h.2.2.1, h.2.2.2.1, ?_, ?_, ?_, ?_⟩
  · exact (h.2.2.2.2.1 "cA" svcA rfl).1
  · exact (h.2.2.2.2.1 "cB" svcB rfl).1
  · exact (h.2.2.2.2.1 "cA" svcA rfl).2
  · exact (h.2.2.2.2.1 "cB" svcB rfl).2

/-- C4: for an `Appeared` event whose name and container are new, a
factory error or a `Start` error leaves the registry untouched (no
insertion in either map, no service calls — the event is discarded),
and any insertion at all implies construction and `Start` both
succeeded, with the started service recorded in both maps. -/
theorem failed_start_leaves_registry_unchanged (env : Env) (m : Manager)
    (ev : ContainerEvent) (cfg : ServiceConfig)
    (htype : ev.type = EventType.start) (hcfg : ev.config = some cfg)
    (hname : mget cfg.name m.names = none)
    (hid : mget ev.containerID m.services = none) :
    ((env.create (m.svcConfigFor cfg) = none ∨
      (∃ svc, env.create (m.svcConfigFor cfg) = some svc ∧ env.startOK svc = false)) →
      m.handleEvent env ev = (m, [])) ∧
    (∀ svc, env.create (m.svcConfigFor cfg) = some svc → env.startOK svc = true →
      mget ev.containerID (m.handleEvent env ev).1.services = some svc ∧
      mget cfg.name (m.handleEvent env ev).1.names = some ev.containerID) ∧
    ((m.handleEvent env ev).1 ≠ m →
      ∃ svc, env.create (m.svcConfigFor cfg) = some svc ∧ env.startOK svc = true) := by
  have hred : m.handleEvent env ev = m.handleStart env ev := by
    simp only [Manager.handleEvent, htype]
  have hstep : m.handleStart env ev =
      match env.create (m.svcConfigFor cfg) with
      | none => (m, [])
      | some svc =>
        if env.startOK svc then
          ({ m with services := mset ev.containerID svc m.services,
                    names := mset cfg.name ev.containerID m.names }, [])
        else (m, []) := by
    simp only [Manager.handleStart, hcfg, hname, hid, Option.isSome_none,
      Bool.false_eq_true, if_false]
  refine ⟨?_, ?_, ?_⟩
  · rintro (hc | ⟨svc, hc, hs⟩)
    · rw [hred, hstep, hc]
    · rw [hred, hstep, hc]
      simp [hs]
  · intro svc hc hs
    rw [hred, hstep, hc]
    simp only [hs, if_true]
    exact ⟨mget_mset_self _ _ _, mget_mset_self _ _ _⟩
  · intro hne
    cases hc : env.create (m.svcConfigFor cfg) with
    | none =>
      exfalso
      apply hne
      rw [hred, hstep, hc]
    | some svc =>
      by_cases hs : env.startOK svc = true
      · exact ⟨svc, rfl, hs⟩
      · exfalso
        apply hne
        rw [hred, hstep, hc]
        dsimp only
        rw [if_neg hs]

/-- An environment whose factory fails on names starting "bad" and whose
`Start` fails on target port 0. -/
def envFlaky : Env :=
  { create := fun c => if c.name = "bad" then none
      else some { name := c.name, targetIP := c.targetIP, targetPort := c.port },
    startOK := fun s => s.targetPort != 0,
    stopOK := fun _ => true }

/-- An empty registry. -/
def mEmpty : Manager :=
  newManager { authKey := "tskey", stateDir := "/var/lib/dovetail" }

/-- An `Appeared` event whose service would not start (port 0). -/
def evPort0 : ContainerEvent :=
  { type := EventType.start, containerID := "c9",
    config := some { name := "web", port := 0, ip := "172.17.0.5", network := "bridge" } }

theorem failed_start_leaves_registry_unchanged_witness :
    evPort0.type = EventType.start ∧
    mget "web" mEmpty.names = none ∧
    mget "c9" mEmpty.services = none ∧
    envFlaky.startOK { name := "web", targetIP := "172.17.0.5", targetPort := 0 } = false ∧
    mEmpty.handleEvent envFlaky evPort0 = (mEmpty, []) := by
  have h := (failed_start_leaves_registry_unchanged envFlaky mEmpty evPort0
    { name := "web", port := 0, ip := "172.17.0.5", network := "bridge" }
    rfl rfl rfl rfl).1
  refine ⟨rfl, rfl, rfl, by decide, ?_⟩
  exact h (Or.inr ⟨{ name := "web", targetIP := "172.17.0.5", targetPort := 0 }, rfl, by decide⟩)

/-- C2: two `Appeared` events with distinct WorkloadIDs but the same
name, handled sequentially against a registry where that name is new:
the first (successfully constructed and started) registration wins and
is inserted, the second event is rejected with no state change and no
service calls, exactly one service is created, and the number of
registry entries for that name is exactly 1. -/
theorem second_appeared_with_same_name_rejected (env : Env) (m : Manager)
    (ev1 ev2 : ContainerEvent) (cfg1 cfg2 : ServiceConfig) (svc : Svc)
    (h1t : ev1.type = EventType.start) (h2t : ev2.type = EventType.start)
    (h1c : ev1.config = some cfg1) (h2c : ev2.config = some cfg2)
    (hsame : cfg2.name = cfg1.name) (hids : ev2.containerID ≠ ev1.containerID)
    (hndn : keysNodup m.names)
    (hnamefresh : mget cfg1.name m.names = none)
    (hidfresh : mget ev1.containerID m.services = none)
    (hcreate : env.create (m.svcConfigFor cfg1) = some svc)
    (hstart : env.startOK svc = true) :
    mget cfg1.name (m.handleEvent env ev1).1.names = some ev1.containerID ∧
    (m.handleEvent env ev1).1.serviceCount = m.serviceCount + 1 ∧
    (m.handleEvent env ev1).1.handleEvent env ev2 = ((m.handleEvent env ev1).1, []) ∧
    (m.handleEvent env ev1).1.names.countP (fun p => decide (p.1 = cfg1.name)) = 1 := by
  have hm1 : m.handleEvent env ev1 =
      ({ m with services := mset ev1.containerID svc m.services,
                names := mset cfg1.name ev1.containerID m.names }, []) := by
    simp only [Manager.handleEvent, h1t, Manager.handleStart, h1c, hnamefresh,
      Option.isSome_none, Bool.false_eq_true, if_false, hidfresh, hcreate, hstart, if_true]
  rw [hm1]
  refine ⟨mget_mset_self _ _ _, ?_, ?_, ?_⟩
  · show (mset ev1.containerID svc m.services).length = m.services.length + 1
    exact length_mset_of_fresh svc hidfresh
  · have hdup : mget cfg2.name (mset cfg1.name ev1.containerID m.names) =
        some ev1.containerID := by
      rw [hsame]
      exact mget_mset_self _ _ _
    simp only [Manager.handleEvent, h2t, Manager.handleStart, h2c, hdup,
      Option.isSome_some, if_true]
  · exact countP_key_eq_one (keysNodup_mset_of_fresh _ hndn hnamefresh)
      (mget_mset_self _ _ _)

/-- A second container claiming the name "web". -/
def evWeb1 : ContainerEvent :=
  { type := EventType.start, containerID := "c1",
    config := some { name := "web", port := 80, ip := "172.17.0.2", network := "bridge" } }

def evWeb2 : ContainerEvent :=
  { type := EventType.start, containerID := "c2",
    config := some { name := "web", port := 90, ip := "172.17.0.3", network := "bridge" } }

theorem second_appeared_with_same_name_rejected_witness :
    ("c2" : String) ≠ "c1" ∧
    keysNodup mEmpty.names ∧
    mget "web" mEmpty.names = none ∧
    mget "c1" mEmpty.services = none ∧
    mget "web" (mEmpty.handleEvent envFlaky evWeb1).1.names = some "c1" ∧
    (mEmpty.handleEvent envFlaky evWeb1).1.serviceCount = 1 ∧
    (mEmpty.handleEvent envFlaky evWeb1).1.handleEvent envFlaky evWeb2 =
      ((mEmpty.handleEvent envFlaky evWeb1).1, []) ∧
    (mEmpty.handleEvent envFlaky evWeb1).1.names.countP
      (fun p => decide (p.1 = "web")) = 1 := by
  have h := second_appeared_with_same_name_rejected envFlaky mEmpty evWeb1 evWeb2
    { name := "web", port := 80, ip := "172.17.0.2", network := "bridge" }
    { name := "web", port := 90, ip := "172.17.0.3", network := "bridge" }
    { name := "web", targetIP := "172.17.0.2", targetPort := 80 }
    rfl rfl rfl rfl rfl (by decide) (by decide) rfl rfl rfl (by decide)
  exact ⟨by decide, by decide, rfl, rfl, h.1, h.2.1, h.2.2.1, h.2.2.2⟩

/-- The service registered for container "c1" under the name "web". -/
def svcWeb : Svc := { name := "web", targetIP := "172.17.0.2", targetPort := 80 }

/-- A registry that already holds `svcWeb` for container "c1". -/
def mWeb : Manager :=
  { config := { authKey := "tskey", stateDir := "/var/lib/dovetail" },
    services := [("c1", svcWeb)],
    names := [("web", "c1")] }

/-- The default environment: the factory mirrors `service.New` (service
named after the config) and `Start`/`Stop` succeed. -/
def envDefault : Env :=
  { create := fun c => some { name := c.name, targetIP := c.targetIP, targetPort := c.port },
    startOK := fun _ => true,
    stopOK := fun _ => true }

/-- A repeat `Appeared` for the registered container "c1" (same name
label, new address), e.g. from the initial scan plus the live event. -/
def evRepeat : ContainerEvent :=
  { type := EventType.start, containerID := "c1",
    config := some { name := "web", port := 80, ip := "172.17.0.9", network := "bridge" } }

/-- C1 (code bug, evaluated at the failing input): container "c1" is
registered with its service named "web", and a repeat `Appeared` event
for "c1" resolving to the new address 172.17.0.9 is rejected by the
duplicate-name check — `HandleEvent` returns with the registry unchanged
and an empty call trace, so `UpdateTarget` is never invoked, although
the claim (and the source's own comment on the existing-container
branch) say the existing endpoint is retargeted. -/
theorem repeat_appeared_same_name_not_retargeted :
    mget "c1" mWeb.services = some svcWeb ∧
    svcWeb.name = "web" ∧
    evRepeat.containerID = "c1" ∧
    evRepeat.config =
      some { name := "web", port := 80, ip := "172.17.0.9", network := "bridge" } ∧
    ("172.17.0.9" : String) ≠ svcWeb.targetIP ∧
    mWeb.handleEvent envDefault evRepeat = (mWeb, []) := by
  exact ⟨rfl, rfl, rfl, rfl, by decide, rfl⟩

theorem mget_mdel_eq_some {α : Type} {j k : String} {v : α} {m : List (String × α)}
    (hnd : keysNodup m) (h : mget j (mdel k m) = some v) :
    j ≠ k ∧ mget j m = some v := by
  by_cases hjk : j = k
  · subst hjk
    rw [mget_mdel_self j m hnd] at h
    cases h
  · refine ⟨hjk, ?_⟩
    rw [← mget_mdel_ne m hnd hjk]
    exact h

/-- The mutual-consistency invariant of the registry's two maps (C3):
every name entry points to a registered service carrying that name,
every registered service has its name registered back to its container,
and both maps have pairwise-distinct keys (at most one service per
container ID). -/
def RegistryConsistent (m : Manager) : Prop :=
  (∀ n id, mget n m.names = some id →
    ∃ svc, mget id m.services = some svc ∧ svc.name = n) ∧
  (∀ id svc, mget id m.services = some svc → mget svc.name m.names = some id) ∧
  keysNodup m.services ∧ keysNodup m.names

theorem registryConsistent_of_empty {m : Manager} (hs : m.services = [])
    (hn : m.names = []) : RegistryConsistent m := by
  refine ⟨?_, ?_, ?_, ?_⟩
  · intro n id h
    rw [hn] at h
    cases h
  · intro id svc h
    rw [hs] at h
    cases h
  · unfold keysNodup
    rw [hs]
    exact List.nodup_nil
  · unfold keysNodup
    rw [hn]
    exact List.nodup_nil

theorem consistent_update_branch {m : Manager} {id0 : String} {existing upd : Svc}
    (hm : RegistryConsistent m) (hex : mget id0 m.services = some existing)
    (hupd : upd.name = existing.name) :
    RegistryConsistent { m with services := mset id0 upd m.services } := by
  obtain ⟨h1, h2, hnds, hndn⟩ := hm
  refine ⟨?_, ?_, keysNodup_mset_of_mem upd hnds hex, hndn⟩
  · intro n id hn
    obtain ⟨svc, hsvc, hname⟩ := h1 n id hn
    by_cases hid : id = id0
    · subst hid
      rw [hex] at hsvc
      cases hsvc
      refine ⟨upd, ?_, ?_⟩
      · exact mget_mset_self _ _ _
      · rw [hupd]
        exact hname
    · refine ⟨svc, ?_, hname⟩
      rw [mget_mset_ne _ _ hid]
      exact hsvc
  · intro id svc' hsvc'
    by_cases hid : id = id0
    · subst hid
      rw [mget_mset_self] at hsvc'
      cases hsvc'
      rw [hupd]
      exact h2 _ existing hex
    · rw [mget_mset_ne _ _ hid] at hsvc'
      exact h2 id svc' hsvc'

theorem consistent_insert_branch {m : Manager} {id0 n0 : String} {svc : Svc}
    (hm : RegistryConsistent m) (hnfresh : mget n0 m.names = none)
    (hifresh : mget id0 m.services = none) (hname : svc.name = n0) :
    RegistryConsistent
      { m with services := mset id0 svc m.services, names := mset n0 id0 m.names } := by
  obtain ⟨h1, h2, hnds, hndn⟩ := hm
  refine ⟨?_, ?_, keysNodup_mset_of_fresh svc hnds hifresh,
    keysNodup_mset_of_fresh id0 hndn hnfresh⟩
  · intro n id hn
    by_cases hnn : n = n0
    · subst hnn
      rw [mget_mset_self] at hn
      cases hn
      exact ⟨svc, mget_mset_self _ _ _, hname⟩
    · rw [mget_mset_ne _ _ hnn] at hn
      obtain ⟨svc', hsvc', hn'⟩ := h1 n id hn
      have hid : id ≠ id0 := by
        intro hEq
        subst hEq
        rw [hifresh] at hsvc'
        cases hsvc'
      refine ⟨svc', ?_, hn'⟩
      rw [mget_mset_ne _ _ hid]
      exact hsvc'
  · intro id svc' hsvc'
    by_cases hid : id = id0
    · subst hid
      rw [mget_mset_self] at hsvc'
      cases hsvc'
      rw [hname]
      exact mget_mset_self _ _ _
    · rw [mget_mset_ne _ _ hid] at hsvc'
      have h2' := h2 id svc' hsvc'
      have hne : svc'.name ≠ n0 := by
        intro hEq
        rw [hEq] at h2'
        rw [hnfresh] at h2'
        cases h2'
      rw [mget_mset_ne _ _ hne]
      exact h2'

theorem consistent_delete_branch {m : Manager} {id0 : String} {svc : Svc}
    (hm : RegistryConsistent m) (hex : mget id0 m.services = some svc) :
    RegistryConsistent
      { m with services := mdel id0 m.services, names := mdel svc.name m.names } := by
  obtain ⟨h1, h2, hnds, hndn⟩ := hm
  refine ⟨?_, ?_, keysNodup_mdel id0 hnds, keysNodup_mdel svc.name hndn⟩
  · intro n id hn
    obtain ⟨hnne, hn'⟩ := mget_mdel_eq_some hndn hn
    obtain ⟨svc', hsvc', hname⟩ := h1 n id hn'
    have hid : id ≠ id0 := by
      intro hEq
      subst hEq
      rw [hex] at hsvc'
      cases hsvc'
      exact hnne hname.symm
    refine ⟨svc', ?_, hname⟩
    rw [mget_mdel_ne m.services hnds hid]
    exact hsvc'
  · intro id svc' hsvc'
    obtain ⟨hid, hsvc''⟩ := mget_mdel_eq_some hnds hsvc'
    have h2' := h2 id svc' hsvc''
    have hne : svc'.name ≠ svc.name := by
      intro hEq
      rw [hEq] at h2'
      have := h2 id0 svc hex
      rw [this] at h2'
      cases h2'
      exact hid rfl
    rw [mget_mdel_ne m.names hndn hne]
    exact h2'

theorem handleStart_preserves_consistent (env : Env)
    (hfac : ∀ scfg svc, env.create scfg = some svc → svc.name = scfg.name)
    (m : Manager) (ev : ContainerEvent) (hm : RegistryConsistent m) :
    RegistryConsistent (m.handleStart env ev).1 := by
  unfold Manager.handleStart
  cases hc : ev.config with
  | none => exact hm
  | some cfg =>
    dsimp only
    by_cases hdup : (mget cfg.name m.names).isSome = true
    · rw [if_pos hdup]
      exact hm
    · rw [if_neg hdup]
      cases hex : mget ev.containerID m.services with
      | some existing =>
        exact consistent_update_branch hm hex rfl
      | none =>
        dsimp only
        cases hcr : env.create (m.svcConfigFor cfg) with
        | none => exact hm
        | some svc =>
          dsimp only
          by_cases hs : env.startOK svc = true
          · rw [if_pos hs]
            have hnfresh : mget cfg.name m.names = none := by
              cases hlook : mget cfg.name m.names with
              | none => rfl
              | some x =>
                rw [hlook] at hdup
                exact absurd rfl hdup
            exact consistent_insert_branch hm hnfresh hex (hfac _ _ hcr)
          · rw [if_neg hs]
            exact hm

theorem handleStop_preserves_consistent (env : Env) (m : Manager)
    (ev : ContainerEvent) (hm : RegistryConsistent m) :
    RegistryConsistent (m.handleStop env ev).1 := by
  unfold Manager.handleStop
  cases hex : mget ev.containerID m.services with
  | none => exact hm
  | some svc => exact consistent_delete_branch hm hex

theorem applyOp_preserves_consistent (env : Env)
    (hfac : ∀ scfg svc, env.create scfg = some svc → svc.name = scfg.name)
    (m : Manager) (op : Op) (hm : RegistryConsistent m) :
    RegistryConsistent (m.applyOp env op) := by
  cases op with
  | event ev =>
    show RegistryConsistent (m.handleEvent env ev).1
    unfold Manager.handleEvent
    cases ev.type with
    | start => exact handleStart_preserves_consistent env hfac m ev hm
    | stop => exact handleStop_preserves_consistent env m ev hm
  | shutdown =>
    exact registryConsistent_of_empty rfl rfl

theorem applyOps_preserves_consistent (env : Env)
    (hfac : ∀ scfg svc, env.create scfg = some svc → svc.name = scfg.name)
    (ops : List Op) :
    ∀ m : Manager, RegistryConsistent m → RegistryConsistent (m.applyOps env ops) := by
  induction ops with
  | nil =>
    intro m hm
    exact hm
  | cons op rest ih =>
    intro m hm
    exact ih _ (applyOp_preserves_consistent env hfac m op hm)

/-- C3: in every state reachable from a fresh registry by
sequentially-applied operations (any `HandleEvent`s and `Shutdown`s),
the two maps are mutually consistent: every `byName` key maps to a
container whose registered service carries exactly that name, every
registered service has exactly one corresponding `byName` key, and the
service map holds at most one service per container ID.  (Requires the
factory to name the service after its config, as `service.New` does.) -/
theorem registry_maps_stay_consistent (env : Env)
    (hfac : ∀ scfg svc, env.create scfg = some svc → svc.name = scfg.name)
    (cfg : Config) (ops : List Op) :
    (∀ n id, mget n ((newManager cfg).applyOps env ops).names = some id →
      ∃ svc, mget id ((newManager cfg).applyOps env ops).services = some svc ∧
        svc.name = n) ∧
    (∀ id svc, mget id ((newManager cfg).applyOps env ops).services = some svc →
      mget svc.name ((newManager cfg).applyOps env ops).names = some id ∧
      ∀ n, mget n ((newManager cfg).applyOps env ops).names = some id → n = svc.name) ∧
    keysNodup ((newManager cfg).applyOps env ops).services := by
  have hbase : RegistryConsistent (newManager cfg) :=
    registryConsistent_of_empty rfl rfl
  obtain ⟨h1, h2, hnds, hndn⟩ := applyOps_preserves_consistent env hfac ops _ hbase
  refine ⟨h1, ?_, hnds⟩
  intro id svc hsvc
  refine ⟨h2 id svc hsvc, ?_⟩
  intro n hn
  obtain ⟨svc', hsvc', hname⟩ := h1 n id hn
  rw [hsvc] at hsvc'
  cases hsvc'
  exact hname.symm

theorem registry_maps_stay_consistent_witness :
    (∀ scfg svc, envDefault.create scfg = some svc → svc.name = scfg.name) ∧
    keysNodup ((newManager { authKey := "tskey", stateDir := "/var/lib/dovetail" }).applyOps
      envDefault [Op.event evWeb1, Op.event evWeb2, Op.event evRepeat, Op.shutdown]).services := by
  have hfac : ∀ scfg svc, envDefault.create scfg = some svc → svc.name = scfg.name := by
    intro scfg svc h
    injection h with h2
    rw [← h2]
  exact ⟨hfac, (registry_maps_stay_consistent envDefault hfac
    { authKey := "tskey", stateDir := "/var/lib/dovetail" }
    [Op.event evWeb1, Op.event evWeb2, Op.event evRepeat, Op.shutdown]).2.2⟩

theorem preferredIP_eq_some_of {networks : List (String × String)}
    {preferred ip : String} (hp : preferred ≠ "")
    (h : mget preferred networks = some ip) (hip : ip ≠ "") :
    preferredIP networks preferred = some (ip, preferred) := by
  unfold preferredIP
  rw [if_neg hp, h]
  dsimp only
  rw [if_neg hip]

theorem preferredIP_eq_none_of {networks : List (String × String)} {preferred : String}
    (h : preferred = "" ∨ mget preferred networks = none ∨
      mget preferred networks = some "") :
    preferredIP networks preferred = none := by
  unfold preferredIP
  rcases h with h | h | h
  · rw [if_pos h]
  · by_cases hp : preferred = ""
    · rw [if_pos hp]
    · rw [if_neg hp, h]
  · by_cases hp : preferred = ""
    · rw [if_pos hp]
    · rw [if_neg hp, h]
      simp

theorem bridgeIP_eq_some_of {networks : List (String × String)} {bip : String}
    (h : mget "bridge" networks = some bip) (hip : bip ≠ "") :
    bridgeIP networks = some (bip, "bridge") := by
  unfold bridgeIP
  rw [h]
  dsimp only
  rw [if_neg hip]

theorem bridgeIP_eq_none_of {networks : List (String × String)}
    (h : mget "bridge" networks = none ∨ mget "bridge" networks = some "") :
    bridgeIP networks = none := by
  unfold bridgeIP
  rcases h with h | h
  · rw [h]
  · rw [h]
    simp

theorem getContainerIP_unfold {networks : List (String × String)}
    (hne : networks ≠ []) (preferred : String) :
    getContainerIP networks preferred =
      match preferredIP networks preferred with
      | some r => some r
      | none =>
        match bridgeIP networks with
        | some r => some r
        | none => firstIPByName networks (sortedNames networks) := by
  unfold getContainerIP
  rw [if_neg ?_]
  cases networks with
  | nil => exact absurd rfl hne
  | cons p rest => simp

theorem firstIPByName_min {networks : List (String × String)} :
    ∀ l : List String, l.Sorted (fun a b : String => a ≤ b) →
    (∀ n ip, mget n networks = some ip → ip ≠ "" → n ∈ l) →
    (∃ n ip, mget n networks = some ip ∧ ip ≠ "") →
    ∃ n ip, firstIPByName networks l = some (ip, n) ∧ mget n networks = some ip ∧
      ip ≠ "" ∧ ∀ nq ipq, mget nq networks = some ipq → ipq ≠ "" → n ≤ nq := by
  intro l
  induction l with
  | nil =>
    intro _ hcover hex
    obtain ⟨n, ip, hm, hip⟩ := hex
    exact absurd (hcover n ip hm hip) (List.not_mem_nil n)
  | cons a l ih =>
    intro hsort hcover hex
    rw [List.sorted_cons] at hsort
    cases ha : mget a networks with
    | some ip =>
      by_cases hip : ip = ""
      · have hcover' : ∀ n ipn, mget n networks = some ipn → ipn ≠ "" → n ∈ l := by
          intro n ipn hm hne
          rcases List.mem_cons.mp (hcover n ipn hm hne) with hna | hnl
          · subst hna
            rw [ha] at hm
            cases hm
            exact absurd hip hne
          · exact hnl
        obtain ⟨n, ipn, hres, hm, hne, hmin⟩ := ih hsort.2 hcover' hex
        refine ⟨n, ipn, ?_, hm, hne, hmin⟩
        simpa [firstIPByName, ha, hip] using hres
      · refine ⟨a, ip, ?_, ha, hip, ?_⟩
        · simp [firstIPByName, ha, hip]
        · intro nq ipq hmq hneq
          rcases List.mem_cons.mp (hcover nq ipq hmq hneq) with hna | hnl
          · subst hna
            exact le_refl nq
          · exact hsort.1 nq hnl
    | none =>
      have hcover' : ∀ n ipn, mget n networks = some ipn → ipn ≠ "" → n ∈ l := by
        intro n ipn hm hne
        rcases List.mem_cons.mp (hcover n ipn hm hne) with hna | hnl
        · subst hna
          rw [ha] at hm
          cases hm
        · exact hnl
      obtain ⟨n, ipn, hres, hm, hne, hmin⟩ := ih hsort.2 hcover' hex
      refine ⟨n, ipn, ?_, hm, hne, hmin⟩
      simpa [firstIPByName, ha] using hres

theorem firstIPByName_eq_none_of_all_empty {networks : List (String × String)}
    (hall : ∀ n ip, mget n networks = some ip → ip = "") :
    ∀ l : List String, firstIPByName networks l = none := by
  intro l
  induction l with
  | nil => rfl
  | cons a l ih =>
    cases ha : mget a networks with
    | some ip =>
      have : ip = "" := hall a ip ha
      simp [firstIPByName, ha, this, ih]
    | none => simp [firstIPByName, ha, ih]

/-- C6: address selection follows the documented priority — the
preferred network when one is named and it has a non-empty address,
else "bridge" when present with a non-empty address, else the
lexicographically smallest network name among those with a non-empty
address, else an error — and the spec's concrete example resolves to
`EndpointSpec{Name:"web", Port:80, Address:"172.17.0.2",
Network:"bridge"}`.  (Selection is a pure function of its inputs, hence
deterministic.) -/
theorem network_selection_priority :
    (∀ (networks : List (String × String)) (preferred ip : String), preferred ≠ "" →
      mget preferred networks = some ip → ip ≠ "" →
      getContainerIP networks preferred = some (ip, preferred)) ∧
    (∀ (networks : List (String × String)) (preferred bip : String),
      (preferred = "" ∨ mget preferred networks = none ∨
        mget preferred networks = some "") →
      mget "bridge" networks = some bip → bip ≠ "" →
      getContainerIP networks preferred = some (bip, "bridge")) ∧
    (∀ (networks : List (String × String)) (preferred : String),
      (preferred = "" ∨ mget preferred networks = none ∨
        mget preferred networks = some "") →
      (mget "bridge" networks = none ∨ mget "bridge" networks = some "") →
      (∃ n ip, mget n networks = some ip ∧ ip ≠ "") →
      ∃ n ip, getContainerIP networks preferred = some (ip, n) ∧
        mget n networks = some ip ∧ ip ≠ "" ∧
        ∀ nq ipq, mget nq networks = some ipq → ipq ≠ "" → n ≤ nq) ∧
    (∀ (networks : List (String × String)) (preferred : String),
      (∀ n ip, mget n networks = some ip → ip = "") →
      getContainerIP networks preferred = none) ∧
    inspectContainer
      { labels := [(labelName, "web"), (labelPort, "80")],
        networks := [("bridge", "172.17.0.2")] } =
      some { name := "web", port := 80, ip := "172.17.0.2", network := "bridge" } := by
  refine ⟨?_, ?_, ?_, ?_, by decide⟩
  · intro networks preferred ip hp hm hip
    have hne : networks ≠ [] := by
      intro hEq
      rw [hEq] at hm
      cases hm
    rw [getContainerIP_unfold hne, preferredIP_eq_some_of hp hm hip]
  · intro networks preferred bip hpf hm hip
    have hne : networks ≠ [] := by
      intro hEq
      rw [hEq] at hm
      cases hm
    rw [getContainerIP_unfold hne, preferredIP_eq_none_of hpf]
    dsimp only
    rw [bridgeIP_eq_some_of hm hip]
  · intro networks preferred hpf hbf hex
    have hne : networks ≠ [] := by
      obtain ⟨n, ip, hm, -⟩ := hex
      intro hEq
      rw [hEq] at hm
      cases hm
    have hsort : (sortedNames networks).Sorted (fun a b : String => a ≤ b) :=
      List.sorted_insertionSort _ _
    have hcover : ∀ n ip, mget n networks = some ip → ip ≠ "" →
        n ∈ sortedNames networks := by
      intro n ip hm _
      exact (List.mem_insertionSort _).mpr
        (List.mem_map.mpr ⟨(n, ip), mem_of_mget_eq_some hm, rfl⟩)
    obtain ⟨n, ip, hres, hm, hip, hmin⟩ := firstIPByName_min _ hsort hcover hex
    refine ⟨n, ip, ?_, hm, hip, hmin⟩
    rw [getContainerIP_unfold hne, preferredIP_eq_none_of hpf]
    dsimp only
    rw [bridgeIP_eq_none_of hbf]
    exact hres
  · intro networks preferred hall
    cases networks with
    | nil => rfl
    | cons p rest =>
      have hne : p :: rest ≠ [] := List.cons_ne_nil p rest
      have hpf : preferred = "" ∨ mget preferred (p :: rest) = none ∨
          mget preferred (p :: rest) = some "" := by
        cases hm : mget preferred (p :: rest) with
        | none => exact Or.inr (Or.inl rfl)
        | some ip =>
          have hz := hall preferred ip hm
          exact Or.inr (Or.inr (by rw [hz]))
      have hbf : mget "bridge" (p :: rest) = none ∨
          mget "bridge" (p :: rest) = some "" := by
        cases hm : mget "bridge" (p :: rest) with
        | none => exact Or.inl rfl
        | some ip =>
          have hz := hall "bridge" ip hm
          exact Or.inr (by rw [hz])
      rw [getContainerIP_unfold hne, preferredIP_eq_none_of hpf]
      dsimp only
      rw [bridgeIP_eq_none_of hbf]
      exact firstIPByName_eq_none_of_all_empty hall _

/-- Two networks, neither preferred nor "bridge", listed out of
lexicographic order. -/
def netsTwo : List (String × String) := [("beta", "10.0.0.2"), ("alpha", "10.0.0.1")]

theorem network_selection_priority_witness :
    (("" : String) = "" ∨ mget "" netsTwo = none ∨ mget "" netsTwo = some "") ∧
    (mget "bridge" netsTwo = none ∨ mget "bridge" netsTwo = some "") ∧
    (∃ n ip, mget n netsTwo = some ip ∧ ip ≠ "") ∧
    (∃ n ip, getContainerIP netsTwo "" = some (ip, n) ∧
      mget n netsTwo = some ip ∧ ip ≠ "" ∧
      ∀ nq ipq, mget nq netsTwo = some ipq → ipq ≠ "" → n ≤ nq) := by
  refine ⟨Or.inl rfl, Or.inl rfl, ⟨"alpha", "10.0.0.1", rfl, by decide⟩, ?_⟩
  exact network_selection_priority.2.2.1 netsTwo "" (Or.inl rfl) (Or.inl rfl)
    ⟨"alpha", "10.0.0.1", rfl, by decide⟩

/-- C7 counterexample: the port label is parsed with `strconv.Atoi` but
never range-checked, so resolution succeeds with port 70000, outside the
valid TCP range (and similarly for negative values). -/
theorem port_label_not_range_checked :
    inspectContainer
      { labels := [(labelName, "web"), (labelPort, "70000")],
        networks := [("bridge", "172.17.0.2")] } =
      some { name := "web", port := 70000, ip := "172.17.0.2", network := "bridge" } ∧
    ¬((1 : Int) ≤ 70000 ∧ (70000 : Int) ≤ 65535) := by
  exact ⟨by decide, by decide⟩

theorem preferredIP_some_imp {networks : List (String × String)}
    {preferred ip n : String} (h : preferredIP networks preferred = some (ip, n)) :
    ip ≠ "" := by
  unfold preferredIP at h
  by_cases hp : preferred = ""
  · rw [if_pos hp] at h
    cases h
  · rw [if_neg hp] at h
    cases hm : mget preferred networks with
    | none =>
      rw [hm] at h
      cases h
    | some ip0 =>
      rw [hm] at h
      dsimp only at h
      by_cases hip : ip0 = ""
      · rw [if_pos hip] at h
        cases h
      · rw [if_neg hip] at h
        injection h with h1
        injection h1 with h2 h3
        rw [← h2]
        exact hip

theorem bridgeIP_some_imp {networks : List (String × String)} {ip n : String}
    (h : bridgeIP networks = some (ip, n)) : ip ≠ "" := by
  unfold bridgeIP at h
  cases hm : mget "bridge" networks with
  | none =>
    rw [hm] at h
    cases h
  | some ip0 =>
    rw [hm] at h
    dsimp only at h
    by_cases hip : ip0 = ""
    · rw [if_pos hip] at h
      cases h
    · rw [if_neg hip] at h
      injection h with h1
      injection h1 with h2 h3
      rw [← h2]
      exact hip

theorem firstIPByName_some_imp {networks : List (String × String)} :
    ∀ {l : List String} {ip n : String},
      firstIPByName networks l = some (ip, n) → ip ≠ "" := by
  intro l
  induction l with
  | nil =>
    intro ip n h
    cases h
  | cons a rest ih =>
    intro ip n h
    unfold firstIPByName at h
    cases hm : mget a networks with
    | none =>
      rw [hm] at h
      exact ih h
    | some ip0 =>
      rw [hm] at h
      dsimp only at h
      by_cases hip : ip0 = ""
      · rw [if_pos hip] at h
        exact ih h
      · rw [if_neg hip] at h
        injection h with h1
        injection h1 with h2 h3
        rw [← h2]
        exact hip

theorem getContainerIP_some_imp {networks : List (String × String)}
    {preferred ip net : String}
    (h : getContainerIP networks preferred = some (ip, net)) : ip ≠ "" := by
  unfold getContainerIP at h
  by_cases hemp : networks.isEmpty = true
  · rw [if_pos hemp] at h
    cases h
  · rw [if_neg hemp] at h
    cases hp : preferredIP networks preferred with
    | some r =>
      rw [hp] at h
      dsimp only at h
      injection h with h1
      rw [h1] at hp
      exact preferredIP_some_imp hp
    | none =>
      rw [hp] at h
      dsimp only at h
      cases hb : bridgeIP networks with
      | some r =>
        rw [hb] at h
        dsimp only at h
        injection h with h1
        rw [h1] at hb
        exact bridgeIP_some_imp hb
      | none =>
        rw [hb] at h
        dsimp only at h
        exact firstIPByName_some_imp h

/-- C7 (amended): every `ServiceConfig` produced by a successful
`inspectContainer` has a non-empty name and a non-empty address, and its
port is exactly the `Atoi`-parsed value of the port label — no range
check is applied. -/
theorem resolved_spec_name_addr_nonempty (info : ContainerInfo) (cfg : ServiceConfig)
    (h : inspectContainer info = some cfg) :
    cfg.name ≠ "" ∧ cfg.ip ≠ "" ∧
    ∃ portStr, mget labelPort info.labels = some portStr ∧
      atoi portStr = some cfg.port := by
  unfold inspectContainer at h
  cases hname : mget labelName info.labels with
  | none =>
    rw [hname] at h
    cases h
  | some name =>
    rw [hname] at h
    dsimp only at h
    by_cases hne : name = ""
    · rw [if_pos hne] at h
      cases h
    · rw [if_neg hne] at h
      cases hport : mget labelPort info.labels with
      | none =>
        rw [hport] at h
        cases h
      | some portStr =>
        rw [hport] at h
        dsimp only at h
        by_cases hpe : portStr = ""
        · rw [if_pos hpe] at h
          cases h
        · rw [if_neg hpe] at h
          cases hatoi : atoi portStr with
          | none =>
            rw [hatoi] at h
            cases h
          | some port =>
            rw [hatoi] at h
            dsimp only at h
            cases hip : getContainerIP info.networks
                ((mget labelNetwork info.labels).getD "") with
            | none =>
              rw [hip] at h
              cases h
            | some pr =>
              obtain ⟨ip, net⟩ := pr
              rw [hip] at h
              dsimp only at h
              cases h
              exact ⟨hne, getContainerIP_some_imp hip, portStr, rfl, hatoi⟩

theorem resolved_spec_name_addr_nonempty_witness :
    inspectContainer
      { labels := [(labelName, "web"), (labelPort, "70000")],
        networks := [("bridge", "172.17.0.2")] } =
      some { name := "web", port := 70000, ip := "172.17.0.2", network := "bridge" } ∧
    ("web" : String) ≠ "" ∧ ("172.17.0.2" : String) ≠ "" ∧
    (∃ portStr,
      mget labelPort [(labelName, "web"), (labelPort, "70000")] = some portStr ∧
      atoi portStr = some 70000) := by
  have h := resolved_spec_name_addr_nonempty
    { labels := [(labelName, "web"), (labelPort, "70000")],
      networks := [("bridge", "172.17.0.2")] }
    { name := "web", port := 70000, ip := "172.17.0.2", network := "bridge" }
    (by decide)
  exact ⟨by decide, h.1, h.2.1, h.2.2⟩

end Dovetail
